import Mathlib

/-!
# Verification of `weatherbot9k.py`

A shallow embedding, in Lean 4, of the weather chatbot `weatherbot9k.py`:
the credential loader `load_api_keys`, the two weather lookup functions
`get_current_weather` / `get_weather_forecast` together with their
`tenacity` retry decorators, the `Conversation` engine
(`get_next_completion`, `append`) and the top-level CLI loop of `main`.

External effects are modelled explicitly:
* the HTTP layer is an oracle (a function from attempt number and URL to
  either parsed JSON or a raised exception);
* the remote completion endpoint is an oracle from request number to a
  response body;
* `print` calls are accumulated in lists of printed lines;
* a raised Python exception (or `sys.exit` / `SystemExit`) is an
  explicit error value.
-/

namespace Weatherbot

/-- JSON-like values as produced by Python's `json` module. -/
inductive Json where
  | null
  | bool (b : Bool)
  | int (n : Int)
  | str (s : String)
  | arr (elts : List Json)
  | obj (fields : List (String × Json))
deriving Repr

/-- Python truthiness of a parsed JSON value (`if x:`). -/
def Json.isTruthy : Json → Bool
  | .null => false
  | .bool b => b
  | .int n => n != 0
  | .str s => !s.isEmpty
  | .arr l => !l.isEmpty
  | .obj l => !l.isEmpty

/-- Python `repr` of a parsed JSON value (as used by `str` on dicts/lists). -/
def Json.pyRepr : Json → String
  | .null => "None"
  | .bool true => "True"
  | .bool false => "False"
  | .int n => toString n
  | .str s => "\x27" ++ s ++ "\x27"
  | .arr l => "[" ++ String.intercalate ", " (l.attach.map (fun x => Json.pyRepr x.1)) ++ "]"
  | .obj l => "\x7b" ++
      String.intercalate ", "
        (l.attach.map (fun x => "\x27" ++ x.1.1 ++ "\x27: " ++ Json.pyRepr x.1.2)) ++ "\x7d"
decreasing_by
  · have h := List.sizeOf_lt_of_mem x.2
    simp_wf
    omega
  · have h := List.sizeOf_lt_of_mem x.2
    have h2 : sizeOf x.1.2 < sizeOf x.1 := by
      obtain ⟨⟨a, b⟩, _⟩ := x
      simp
    simp_wf
    omega

/-- Python `str` applied to a parsed JSON value (f-string interpolation). -/
def Json.fstr : Json → String
  | .str s => s
  | j => j.pyRepr

/-- Subscription `d[k]` on a parsed JSON object, `none` when it would raise
`KeyError` (or the value is not an object). -/
def Json.dictGet : Json → String → Option Json
  | .obj fields, k => fields.lookup k
  | _, _ => none

/-- A Python exception value. -/
inductive PyExn where
  | keyError (key : String)
  | jsonDecodeError (msg : String)
  | requestException (msg : String)
deriving Repr, DecidableEq

/-- Python `str` of an exception. -/
def PyExn.pyStr : PyExn → String
  | .keyError k => "\x27" ++ k ++ "\x27"
  | .jsonDecodeError m => m
  | .requestException m => m

/-! ## Python dictionaries with string keys

`load_api_keys` builds a `dict` whose values are `Optional[str]`
(`os.getenv` returns `None` for an unset variable).  A dict is modelled
as an association list with pairwise-distinct keys maintained by the
operations themselves. -/

/-- `d[k] = v`: update the entry in place when the key exists (CPython
dicts keep insertion order on update), append a new entry otherwise. -/
def dictSet : List (String × Option String) → String → Option String →
    List (String × Option String)
  | [], k, v => [(k, v)]
  | kv :: rest, k, v =>
      if kv.1 = k then (k, v) :: rest else kv :: dictSet rest k v

/-- `del d[k]`. -/
def dictDel (d : List (String × Option String)) (k : String) :
    List (String × Option String) :=
  d.filter (fun kv => kv.1 ≠ k)

/-- `d.get(k)`: `some v` when the key is present with value `v`. -/
def dictGet : List (String × Option String) → String → Option (Option String)
  | [], _ => none
  | kv :: rest, k => if kv.1 = k then some kv.2 else dictGet rest k

/-- The keys of a dict, in insertion order. -/
def dictKeys (d : List (String × Option String)) : List String :=
  d.map (fun kv => kv.1)

/-! ## `load_api_keys` (weatherbot9k.py lines 90-102) -/

/-- Running state of the `for k in keys_to_load` loop of `load_api_keys`:
the `key_buffer` dict plus the lines printed so far. -/
structure LoadState where
  key_buffer : List (String × Option String)
  printed : List String
deriving Repr

/-- One iteration of the loop in `load_api_keys`:
`key_buffer[k] = os.getenv(k)`; if that value `is None`, print the
failure and `del key_buffer[k]`, otherwise (verbose) print the loaded
key's 12-character prefix. -/
def load_step (env : String → Option String) (st : LoadState) (k : String) : LoadState :=
  let buf := dictSet st.key_buffer k (env k)
  match env k with
  | none =>
      { key_buffer := dictDel buf k
        printed := st.printed ++ [s!"Unable to load {k}"] }
  | some v =>
      let pfx := v.take 12
      { key_buffer := buf
        printed := st.printed ++ [s!"Loaded {k}: {pfx}..."] }

/-- Outcome of `load_api_keys`: either `sys.exit(code)` or a returned
mapping, in both cases together with everything printed. -/
inductive LoadResult where
  | exited (code : Nat) (printed : List String)
  | ok (api_keys : List (String × Option String)) (printed : List String)
deriving Repr

/-- `load_api_keys(*keys_to_load)`: fill `key_buffer` from the
environment, dropping unset names; if the buffer ends up smaller than
the requested list, print an error and `sys.exit(78)`; otherwise return
the buffer.  The function performs no network traffic at all. -/
def load_api_keys (env : String → Option String) (keys_to_load : List String) : LoadResult :=
  let st := keys_to_load.foldl (load_step env) ⟨[], []⟩
  if st.key_buffer.length < keys_to_load.length then
    .exited 78 (st.printed ++ ["ERROR: Cannot proceed without all API keys"])
  else
    .ok st.key_buffer st.printed

/-! ## Messages and tool calls (data model of the conversation) -/

/-- The `function` sub-object of a tool call:
`tool_call['function']` with fields `name` and `arguments`
(the latter a JSON-encoded string). -/
structure ToolCallFunction where
  name : String
  arguments : String
deriving Repr, DecidableEq

/-- A tool call embedded in an assistant message:
`{id, type, function}`. -/
structure ToolCall where
  id : String
  type : String
  function : ToolCallFunction
deriving Repr, DecidableEq

/-- One message of the conversation history.  A message built by
`Conversation.append` has `tool_calls = []` and carries `tool_call_id`
only when a truthy one was supplied; an assistant message returned by
the API may carry tool calls and a `none` content. -/
structure Message where
  role : String
  content : Option String
  tool_calls : List ToolCall
  tool_call_id : Option String
deriving Repr, DecidableEq

/-- `Conversation.append(role, content, tool_call_id)` (lines 151-158):
build `{'role': role, 'content': content}`, add the `tool_call_id` key
only when the argument is truthy (not `None` and not the empty string),
and append to the history. -/
def Conversation.append (hist : List Message) (role : String) (content : String)
    (tool_call_id : Option String) : List Message :=
  let message : Message :=
    { role := role
      content := some content
      tool_calls := []
      tool_call_id :=
        match tool_call_id with
        | some s => if s = "" then none else some s
        | none => none }
  hist ++ [message]

/-! ## Weather Lookup Client (lines 249-276)

`requests.get(url)` followed by `response.json()` is modelled by an
oracle `http : String → Except PyExn Json` giving, for the URL, either
the parsed JSON body or the exception the pair of calls raises.  The
`tenacity` `@retry` decorator re-runs the decorated function while it
*raises*; a per-attempt oracle `Nat → String → Except PyExn Json` lets
successive attempts differ.  A function body evaluates to
`Except PyExn (printed lines × returned value)`: `.error` is an
exception escaping the body (which `tenacity` would see), `.ok` a
normal return. -/

/-- The value a weather function hands back: either the parsed JSON
response or the caught exception object returned as the result. -/
inductive ToolReturn where
  | json (j : Json)
  | exn (e : PyExn)
deriving Repr

/-- Python `str` of a weather function's return value. -/
def ToolReturn.pyStr : ToolReturn → String
  | .json j => j.pyRepr
  | .exn e => e.pyStr

/-- `stop_after_attempt(3)` in both weather decorators. -/
def weather_retry_attempt_cap : Nat := 3

/-- `wait_random_exponential(multiplier=1, max=40)` in both weather
decorators: the backoff cap, in seconds, of the randomized wait. -/
def weather_retry_max_backoff : Nat := 40

/-- The retry loop of `tenacity.retry(stop=stop_after_attempt(n))`:
attempt `i` runs `body i`; a raising attempt is retried while retries
remain, and the last permitted attempt's outcome (value or re-raised
exception) is final.  Returns the outcome together with the number of
attempts actually made. -/
def tenacity_run (body : Nat → Except PyExn α) (attempt : Nat) :
    Nat → Except PyExn α × Nat
  | 0 => (body attempt, attempt + 1)
  | retriesLeft + 1 =>
      match body attempt with
      | .ok a => (.ok a, attempt + 1)
      | .error _ => tenacity_run body (attempt + 1) retriesLeft

/-- Run a `tenacity`-decorated body with `stop_after_attempt maxAttempts`. -/
def tenacity_retry (maxAttempts : Nat) (body : Nat → Except PyExn α) :
    Except PyExn α × Nat :=
  tenacity_run body 0 (maxAttempts - 1)

/-- Body of `get_current_weather(args)` (lines 250-261): read
`args['location']` (a `KeyError` escapes the `try`), build the URL, and
inside the `try` perform the GET + JSON decode; on any exception print
two lines and return the exception object itself. -/
def get_current_weather_body (key : String) (args : Json)
    (http : String → Except PyExn Json) :
    Except PyExn (List String × ToolReturn) :=
  match args.dictGet "location" with
  | none => .error (.keyError "location")
  | some locVal =>
      let loc := locVal.fstr
      let url := s!"http://api.weatherapi.com/v1/current.json?key={key}&q={loc}"
      match http url with
      | .ok j => .ok ([], .json j)
      | .error e =>
          let msg := e.pyStr
          .ok (["Unable to retrieve current weather.", s!"Exception: {msg}"], .exn e)

/-- Body of `get_weather_forecast(args)` (lines 264-276): as for the
current weather, with the extra `args['days']` query parameter. -/
def get_weather_forecast_body (key : String) (args : Json)
    (http : String → Except PyExn Json) :
    Except PyExn (List String × ToolReturn) :=
  match args.dictGet "location" with
  | none => .error (.keyError "location")
  | some locVal =>
      match args.dictGet "days" with
      | none => .error (.keyError "days")
      | some daysVal =>
          let loc := locVal.fstr
          let days := daysVal.fstr
          let url := s!"http://api.weatherapi.com/v1/forecast.json?key={key}&q={loc}&days={days}"
          match http url with
          | .ok j => .ok ([], .json j)
          | .error e =>
              let msg := e.pyStr
              .ok ([s!"Unable to retrieve {days}-day forecast.", s!"Exception: {msg}"], .exn e)

/-- The decorated `get_current_weather`: the body under
`@retry(wait=wait_random_exponential(multiplier=1, max=40),
stop=stop_after_attempt(3))`. -/
def get_current_weather (key : String) (http : Nat → String → Except PyExn Json)
    (args : Json) : Except PyExn (List String × ToolReturn) × Nat :=
  tenacity_retry weather_retry_attempt_cap
    (fun i => get_current_weather_body key args (http i))

/-- The decorated `get_weather_forecast`. -/
def get_weather_forecast (key : String) (http : Nat → String → Except PyExn Json)
    (args : Json) : Except PyExn (List String × ToolReturn) × Nat :=
  tenacity_retry weather_retry_attempt_cap
    (fun i => get_weather_forecast_body key args (http i))

/-! ## Conversation engine (`Conversation.get_next_completion`, lines 110-144) -/

/-- The JSON body of one completion response:
`error` is the value of the top-level `error` field when that field is
present; `choices` is the list of `choices[i]['message']` objects
(absent or empty `choices` are both modelled as the empty list — the
subscription `["choices"][0]` raises either way). -/
structure ResponseBody where
  error : Option Json
  choices : List Message
deriving Repr

/-- The environment the engine runs against:
the completion oracle gives the response body of the k-th completion
request of the process; `json_loads` models `json.loads` on a tool
call's `arguments` string; the two `run_*` fields are the decorated
weather functions as entered in the dispatch table `name_to_func`,
`.error` being an exception those calls raise (e.g. a `KeyError`
re-raised after tenacity's last attempt), `.ok` a returned value. -/
structure EngineEnv where
  completions : Nat → ResponseBody
  json_loads : String → Except PyExn Json
  run_get_current_weather : Json → Except PyExn ToolReturn
  run_get_weather_forecast : Json → Except PyExn ToolReturn

/-- Observable engine state: the conversation history, the tool
functions actually invoked (name and parsed arguments, in invocation
order), and the number of completion requests issued so far. -/
structure EngineState where
  conversation_history : List Message
  invocations : List (String × Json)
  requests : Nat
deriving Repr

/-- The ways `get_next_completion` can abort:
`systemExit err` is `raise SystemExit(...)` on a truthy `error` field
(after printing the accompanying notice); `assertType` is the failed
`assert(tool_call['type'] == 'function')`; `assertBackend` the failed
`assert func_to_run != None`; `uncaught e` is any other exception
escaping the method (a `json.loads` failure, an exception raised by a
dispatched function, or the subscription of a missing/empty `choices`). -/
inductive Halt where
  | systemExit (error : Json)
  | assertType
  | assertBackend (func_name : String)
  | uncaught (e : PyExn)
deriving Repr

/-- Dispatch of a single tool call (the body of the
`for tool_call in assistant_message['tool_calls']` loop, lines 123-141):
assert the type, parse the arguments, look the name up in the fixed
two-entry table `name_to_func`, assert the lookup succeeded, run the
function, and append the stringified result as a `tool` message carrying
`tool_call_id=call_id`.  `.error` carries the state at the abort. -/
def dispatch_tool_call (env : EngineEnv) (s : EngineState) (tc : ToolCall) :
    Except (Halt × EngineState) EngineState :=
  if tc.type ≠ "function" then .error (.assertType, s)
  else
    match env.json_loads tc.function.arguments with
    | .error e => .error (.uncaught e, s)
    | .ok func_args =>
        let func_to_run : Option (Json → Except PyExn ToolReturn) :=
          if tc.function.name = "get_current_weather" then
            some env.run_get_current_weather
          else if tc.function.name = "get_weather_forecast" then
            some env.run_get_weather_forecast
          else none
        match func_to_run with
        | none => .error (.assertBackend tc.function.name, s)
        | some func =>
            let s1 := { s with invocations := s.invocations ++ [(tc.function.name, func_args)] }
            match func func_args with
            | .error e => .error (.uncaught e, s1)
            | .ok func_response =>
                .ok { s1 with
                  conversation_history :=
                    Conversation.append s1.conversation_history "tool"
                      (func_response.pyStr) (some tc.id) }

/-- The whole `for tool_call in ...` loop: dispatch the calls in the
order presented, stopping at the first abort. -/
def process_tool_calls (env : EngineEnv) :
    EngineState → List ToolCall → Except (Halt × EngineState) EngineState
  | s, [] => .ok s
  | s, tc :: rest =>
      match dispatch_tool_call env s tc with
      | .error h => .error h
      | .ok s1 => process_tool_calls env s1 rest

/-- Result of running `get_next_completion`: a normal return, an abort,
or exhaustion of the fuel bounding the self-recursion (the Python
method has no such bound of its own). -/
inductive RunResult where
  | done (s : EngineState)
  | halted (h : Halt) (s : EngineState)
  | outOfFuel (s : EngineState)
deriving Repr

/-- Whether a run ran out of fuel before the method returned. -/
def RunResult.isOutOfFuel : RunResult → Bool
  | .outOfFuel _ => true
  | _ => false

/-- The state a run ended in. -/
def RunResult.state : RunResult → EngineState
  | .done s => s
  | .halted _ s => s
  | .outOfFuel s => s

/-- The check `if request_response.json().get('error'):`:
`.get` yields `None` for an absent field and the `if` tests truthiness,
so the branch is taken exactly when the `error` field is present with a
truthy value — which this function then returns. -/
def ResponseBody.truthyError (resp : ResponseBody) : Option Json :=
  match resp.error with
  | some err => if err.isTruthy then some err else none
  | none => none

/-- `Conversation.get_next_completion` (lines 110-144), with `k` the
index of the completion request this activation issues and `fuel`
bounding the recursion depth:
issue the request; on a truthy top-level `error` field print and
`raise SystemExit`; otherwise take `choices[0]['message']`, append it
raw to the history, and when it carries a (non-empty) `tool_calls`
list, dispatch every call and recurse for a further completion. -/
def get_next_completion (env : EngineEnv) : Nat → EngineState → Nat → RunResult
  | _, s, 0 => .outOfFuel s
  | k, s, fuel + 1 =>
      let s0 := { s with requests := s.requests + 1 }
      let resp := env.completions k
      match resp.truthyError with
      | some err => .halted (.systemExit err) s0
      | none =>
          match resp.choices.head? with
          | none => .halted (.uncaught (.keyError "choices")) s0
          | some assistant_message =>
              let s1 := { s0 with
                conversation_history := s0.conversation_history ++ [assistant_message] }
              if assistant_message.tool_calls.isEmpty then .done s1
              else
                match process_tool_calls env s1 assistant_message.tool_calls with
                | .error (h, s2) => .halted h s2
                | .ok s2 => get_next_completion env (k + 1) s2 fuel

/-! ## the CLI loop (`main`, lines 52-87) -/

/-- ASCII whitespace stripped by Python's `str.strip()`. -/
def isPySpace (c : Char) : Bool :=
  c = ' ' || c = '\t' || c = '\n' || c = '\r' || c = '\x0b' || c = '\x0c'

/-- Python `s.strip()` (over the ASCII whitespace classes). -/
def pyStrip (s : String) : String :=
  String.mk (((s.toList.dropWhile isPySpace).reverse.dropWhile isPySpace).reverse)

/-- The system prompt seeded into the conversation (lines 12-22). -/
def system_prompt : String :=
  "You are Weatherbot-9000, an assistant who conveys the weather with a smile on " ++
  "your robotic face. You should be clever and playful, with the persona of a " ++
  "corny weather reporter. All responses should include one and preferably " ++
  "several puns. Only answer questions regarding the weather; steer the " ++
  "conversation back to the weather if it strays to another topic. If a user\n" ++
  "asks you for the weather in a fictional place (Middle-earth, Arrakis, etc.), " ++
  "make up a funny weather report appropriate for that place. Do not say you " ++
  "can\x27t provide the report, just make one up, that\x27s the whole joke! When " ++
  "providing measurements, always use U.S. units (Fahrenheit, inches, mph) and " ++
  "round to whole numbers."

/-- The message `conv.append(role='system', content=system_prompt)` seeds. -/
def system_message : Message :=
  { role := "system"
    content := some system_prompt
    tool_calls := []
    tool_call_id := none }

/-- The conversation history right after the seeding append in `main`
(line 62), before any user interaction. -/
def initial_history : List Message :=
  Conversation.append [] "system" system_prompt none

/-- What one iteration of the `while True` loop in `main` did besides
updating the state: printed the usage hint (`'Use Ctrl-C or Ctrl-D to
exit.'`) and re-prompted, dumped the raw history for `!debug`, or
appended the user message and ran `get_next_completion`. -/
inductive IterOutcome where
  | hint
  | debugDump
  | advanced (r : RunResult)

/-- One iteration of the `while True` loop of `main` (lines 70-83) on
user input `user_input`:
empty-after-strip input prints the hint and continues; the `!debug`
sentinel dumps the history and continues; anything else is appended as
a `user` message and the engine advances. -/
def main_loop_iter (env : EngineEnv) (fuel : Nat) (s : EngineState)
    (user_input : String) : EngineState × IterOutcome :=
  if pyStrip user_input = "" then (s, .hint)
  else if user_input = "!debug" then (s, .debugDump)
  else
    let s1 := { s with
      conversation_history :=
        Conversation.append s.conversation_history "user" user_input none }
    let r := get_next_completion env 0 s1 fuel
    (r.state, .advanced r)

/-- The conversation histories reachable by the ordinary exchange loop:
the seeded history, closed under running one loop iteration against an
arbitrary environment, fuel, and line of user input. -/
inductive ReachableHistory : List Message → Prop where
  | init : ReachableHistory initial_history
  | step (env : EngineEnv) (fuel : Nat) (input : String) (h : List Message)
      (inv : List (String × Json)) (reqs : Nat) :
      ReachableHistory h →
      ReachableHistory
        (main_loop_iter env fuel ⟨h, inv, reqs⟩ input).1.conversation_history

/-! ## auxiliary definitions used by the statements below -/

/-- The buffer entry `load_api_keys` ends up holding for a processed
name: present with the environment's value when the variable is set,
absent (assigned then deleted) when it is not. -/
def envEntry (env : String → Option String) (k : String) : Option (Option String) :=
  match env k with
  | none => none
  | some v => some (some v)

/-- The tool-call/advance cycle for one user turn terminates: some
finite recursion depth suffices for `get_next_completion` to return or
abort rather than exhaust its fuel. -/
def TurnTerminates (env : EngineEnv) (s : EngineState) : Prop :=
  ∃ fuel, (get_next_completion env 0 s fuel).isOutOfFuel = false

/-- An assistant message that requests one well-formed
`get_current_weather` tool call. -/
def adv_message : Message :=
  { role := "assistant"
    content := none
    tool_calls := [⟨"call_0", "function", ⟨"get_current_weather", ""⟩⟩]
    tool_call_id := none }

/-- An adversarial remote model: every completion response is
`adv_message`, its tool call parses and runs fine, so every advance
round dispatches a tool call and recurses. -/
def adv_env : EngineEnv :=
  { completions := fun _ => ⟨none, [adv_message]⟩
    json_loads := fun _ => .ok (Json.obj [("location", Json.str "Paris")])
    run_get_current_weather := fun _ => .ok (.json Json.null)
    run_get_weather_forecast := fun _ => .ok (.json Json.null) }

/-! ## Lemmas: the dictionary model -/

@[simp]
theorem dictKeys_nil : dictKeys [] = [] := rfl

@[simp]
theorem dictKeys_cons (kv : String × Option String) (d : List (String × Option String)) :
    dictKeys (kv :: d) = kv.1 :: dictKeys d := rfl

theorem dictGet_dictSet_self (d : List (String × Option String)) (k : String)
    (v : Option String) : dictGet (dictSet d k v) k = some v := by
  induction d with
  | nil => simp [dictSet, dictGet]
  | cons kv rest ih =>
      by_cases h1 : kv.1 = k
      · simp [dictSet, dictGet, h1]
      · simp [dictSet, dictGet, h1, ih]

theorem dictGet_dictSet_ne (d : List (String × Option String)) (k : String)
    (v : Option String) (k' : String) (h : k' ≠ k) :
    dictGet (dictSet d k v) k' = dictGet d k' := by
  have h2 : ¬ k = k' := fun hc => h hc.symm
  induction d with
  | nil => simp [dictSet, dictGet, h2]
  | cons kv rest ih =>
      by_cases h1 : kv.1 = k
      · have h3 : ¬ kv.1 = k' := fun hc => h2 (h1.symm.trans hc)
        simp [dictSet, dictGet, h1, h2, h3]
      · by_cases h4 : kv.1 = k'
        · simp [dictSet, dictGet, h1, h4, h, h2]
        · simp [dictSet, dictGet, h1, h4, h, h2, ih]

theorem dictGet_dictDel_self (d : List (String × Option String)) (k : String) :
    dictGet (dictDel d k) k = none := by
  induction d with
  | nil => simp [dictDel, dictGet]
  | cons kv rest ih =>
      by_cases h1 : kv.1 = k
      · simpa [dictDel, dictGet, List.filter_cons, h1] using ih
      · simpa [dictDel, dictGet, List.filter_cons, h1] using ih

theorem dictGet_dictDel_ne (d : List (String × Option String)) (k k' : String)
    (h : k' ≠ k) : dictGet (dictDel d k) k' = dictGet d k' := by
  have h2 : ¬ k = k' := fun hc => h hc.symm
  induction d with
  | nil => simp [dictDel, dictGet]
  | cons kv rest ih =>
      by_cases h1 : kv.1 = k
      · have h3 : ¬ kv.1 = k' := fun hc => h2 (h1.symm.trans hc)
        simpa [dictDel, dictGet, List.filter_cons, h1, h2, h3] using ih
      · by_cases h4 : kv.1 = k'
        · simp [dictDel, dictGet, List.filter_cons, h1, h4, h, h2]
        · simpa [dictDel, dictGet, List.filter_cons, h1, h4, h, h2] using ih

theorem dictKeys_dictSet_mem (d : List (String × Option String)) (k : String)
    (v : Option String) (h : k ∈ dictKeys d) :
    dictKeys (dictSet d k v) = dictKeys d := by
  induction d with
  | nil => simp at h
  | cons kv rest ih =>
      by_cases h1 : kv.1 = k
      · simp [dictSet, h1]
      · have hmem : k ∈ dictKeys rest := by
          rcases List.mem_cons.mp h with heq | hmem
          · exact absurd heq.symm h1
          · exact hmem
        simp [dictSet, h1, ih hmem]

theorem dictKeys_dictSet_notmem (d : List (String × Option String)) (k : String)
    (v : Option String) (h : k ∉ dictKeys d) :
    dictKeys (dictSet d k v) = dictKeys d ++ [k] := by
  induction d with
  | nil => simp [dictSet]
  | cons kv rest ih =>
      have h1 : ¬ kv.1 = k := fun hc => h (by simp [hc])
      have hmem : k ∉ dictKeys rest := fun hc => h (by simp [hc])
      simp [dictSet, h1, ih hmem]

theorem dictKeys_dictDel (d : List (String × Option String)) (k : String) :
    dictKeys (dictDel d k) = (dictKeys d).filter (fun x => x ≠ k) := by
  induction d with
  | nil => simp [dictDel]
  | cons kv rest ih =>
      by_cases h1 : kv.1 = k
      · simp [dictDel, List.filter_cons, h1, dictDel] at ih ⊢
        exact ih
      · simp [dictDel, List.filter_cons, h1, dictDel] at ih ⊢
        exact ih

theorem mem_dictKeys_iff (d : List (String × Option String)) (k : String) :
    k ∈ dictKeys d ↔ dictGet d k ≠ none := by
  induction d with
  | nil => simp [dictGet]
  | cons kv rest ih =>
      simp only [dictKeys_cons, List.mem_cons, dictGet]
      by_cases hk : kv.1 = k
      · simp [hk]
      · have h2 : ¬ k = kv.1 := fun h => hk h.symm
        simp [hk, h2, ih]

theorem nodup_dictKeys_dictSet (d : List (String × Option String)) (k : String)
    (v : Option String) (h : (dictKeys d).Nodup) :
    (dictKeys (dictSet d k v)).Nodup := by
  by_cases hmem : k ∈ dictKeys d
  · rw [dictKeys_dictSet_mem d k v hmem]; exact h
  · rw [dictKeys_dictSet_notmem d k v hmem]
    rw [List.nodup_append]
    exact ⟨h, List.nodup_singleton k, by
      intro a ha hb
      simp only [List.mem_singleton] at hb
      exact hmem (hb ▸ ha)⟩

theorem nodup_dictKeys_dictDel (d : List (String × Option String)) (k : String)
    (h : (dictKeys d).Nodup) : (dictKeys (dictDel d k)).Nodup := by
  rw [dictKeys_dictDel]
  exact (List.filter_sublist _).nodup h

/-! ## Lemmas: the `load_api_keys` loop -/

theorem load_step_get (env : String → Option String) (st : LoadState)
    (k k' : String) :
    dictGet (load_step env st k).key_buffer k' =
      if k' = k then envEntry env k' else dictGet st.key_buffer k' := by
  by_cases h' : k' = k
  · subst h'
    unfold load_step
    cases henv : env k' with
    | none => simp [henv, dictGet_dictDel_self, envEntry]
    | some v => simp [henv, dictGet_dictSet_self, envEntry]
  · unfold load_step
    cases henv : env k with
    | none => simp [henv, dictGet_dictDel_ne _ _ _ h', dictGet_dictSet_ne _ _ _ _ h', h']
    | some v => simp [henv, dictGet_dictSet_ne _ _ _ _ h', h']

theorem loadLoop_get (env : String → Option String) (keys : List String) :
    ∀ (st : LoadState) (k' : String),
      dictGet (keys.foldl (load_step env) st).key_buffer k' =
        if k' ∈ keys then envEntry env k' else dictGet st.key_buffer k' := by
  induction keys with
  | nil => intro st k'; simp
  | cons k rest ih =>
      intro st k'
      simp only [List.foldl_cons]
      rw [ih, load_step_get]
      by_cases hmem : k' ∈ rest
      · simp [hmem]
      · by_cases h' : k' = k <;> simp [h', hmem]

theorem loadLoop_nodup (env : String → Option String) (keys : List String) :
    ∀ st : LoadState, (dictKeys st.key_buffer).Nodup →
      (dictKeys (keys.foldl (load_step env) st).key_buffer).Nodup := by
  induction keys with
  | nil => intro st h; simpa using h
  | cons k rest ih =>
      intro st h
      simp only [List.foldl_cons]
      refine ih _ ?_
      unfold load_step
      cases env k with
      | none => exact nodup_dictKeys_dictDel _ _ (nodup_dictKeys_dictSet _ _ _ h)
      | some v => exact nodup_dictKeys_dictSet _ _ _ h

theorem loadLoop_keys_sub (env : String → Option String) (keys : List String)
    (k' : String) (h : k' ∈ dictKeys (keys.foldl (load_step env) ⟨[], []⟩).key_buffer) :
    k' ∈ keys := by
  by_contra hmem
  rw [mem_dictKeys_iff, loadLoop_get env keys ⟨[], []⟩ k'] at h
  simp [hmem, dictGet] at h

theorem load_step_printed (env : String → Option String) (st : LoadState)
    (k : String) :
    ∃ l, (load_step env st k).printed = st.printed ++ l := by
  unfold load_step
  cases env k with
  | none => exact ⟨_, rfl⟩
  | some v => exact ⟨_, rfl⟩

theorem loadLoop_printed_mono (env : String → Option String) (keys : List String) :
    ∀ st : LoadState, ∃ t, (keys.foldl (load_step env) st).printed = st.printed ++ t := by
  induction keys with
  | nil => intro st; exact ⟨[], by simp⟩
  | cons k rest ih =>
      intro st
      simp only [List.foldl_cons]
      obtain ⟨t, ht⟩ := ih (load_step env st k)
      obtain ⟨l, hl⟩ := load_step_printed env st k
      exact ⟨l ++ t, by rw [ht, hl, List.append_assoc]⟩

theorem loadLoop_missing_printed (env : String → Option String) (keys : List String) :
    ∀ st : LoadState, ∀ k ∈ keys, env k = none →
      s!"Unable to load {k}" ∈ (keys.foldl (load_step env) st).printed := by
  induction keys with
  | nil => intro st k hk; simp at hk
  | cons k0 rest ih =>
      intro st k hk henv
      simp only [List.foldl_cons]
      rcases List.mem_cons.mp hk with heq | hmem
      · subst heq
        obtain ⟨t, ht⟩ := loadLoop_printed_mono env rest (load_step env st k)
        rw [ht]
        refine List.mem_append_left _ ?_
        unfold load_step
        simp [henv]
      · exact ih _ k hmem henv

theorem loadLoop_length_lt_of_missing (env : String → Option String)
    (keys : List String) (k : String) (hk : k ∈ keys) (henv : env k = none) :
    (keys.foldl (load_step env) ⟨[], []⟩).key_buffer.length < keys.length := by
  set final := (keys.foldl (load_step env) ⟨[], []⟩).key_buffer with hfinal
  have hnodup : (dictKeys final).Nodup := loadLoop_nodup env keys ⟨[], []⟩ (by simp [dictKeys])
  have hnotmem : k ∉ dictKeys final := by
    rw [mem_dictKeys_iff, hfinal, loadLoop_get env keys ⟨[], []⟩ k]
    simp [hk, envEntry, henv]
  have hsub : (dictKeys final).toFinset ⊆ keys.toFinset.erase k := by
    intro x hx
    rw [List.mem_toFinset] at hx
    rw [Finset.mem_erase, List.mem_toFinset]
    exact ⟨fun hc => hnotmem (hc ▸ hx), loadLoop_keys_sub env keys x hx⟩
  have h1 : final.length = (dictKeys final).length := by simp [dictKeys]
  have h2 : (dictKeys final).length = (dictKeys final).toFinset.card :=
    (List.toFinset_card_of_nodup hnodup).symm
  have h3 : (dictKeys final).toFinset.card ≤ (keys.toFinset.erase k).card :=
    Finset.card_le_card hsub
  have h4 : (keys.toFinset.erase k).card < keys.toFinset.card :=
    Finset.card_erase_lt_of_mem (List.mem_toFinset.mpr hk)
  have h5 : keys.toFinset.card ≤ keys.length := List.toFinset_card_le keys
  omega

theorem loadLoop_length_le_card (env : String → Option String) (keys : List String) :
    (keys.foldl (load_step env) ⟨[], []⟩).key_buffer.length ≤ keys.toFinset.card := by
  set final := (keys.foldl (load_step env) ⟨[], []⟩).key_buffer with hfinal
  have hnodup : (dictKeys final).Nodup := loadLoop_nodup env keys ⟨[], []⟩ (by simp [dictKeys])
  have hsub : (dictKeys final).toFinset ⊆ keys.toFinset := by
    intro x hx
    rw [List.mem_toFinset] at hx
    exact List.mem_toFinset.mpr (loadLoop_keys_sub env keys x hx)
  have h1 : final.length = (dictKeys final).length := by simp [dictKeys]
  have h2 : (dictKeys final).length = (dictKeys final).toFinset.card :=
    (List.toFinset_card_of_nodup hnodup).symm
  have h3 := Finset.card_le_card hsub
  omega

theorem load_api_keys_eq (env : String → Option String) (keys : List String) :
    load_api_keys env keys =
      if (keys.foldl (load_step env) ⟨[], []⟩).key_buffer.length < keys.length then
        .exited 78 ((keys.foldl (load_step env) ⟨[], []⟩).printed ++
          ["ERROR: Cannot proceed without all API keys"])
      else
        .ok (keys.foldl (load_step env) ⟨[], []⟩).key_buffer
          (keys.foldl (load_step env) ⟨[], []⟩).printed := rfl

/-- C3: for every list of required credential names, `load_api_keys`
either returns a mapping holding a value for every requested name
(never a partial mapping), or — whenever some environment value is
missing — prints `Unable to load <name>` for each missing name and
terminates the process via `sys.exit(78)`, the distinct
configuration-error status; the only exit status it ever uses is 78,
and the function performs no network call (the model of its body
contains none).  Stated as: (1) any exit uses status 78; (2) a missing
value forces the 78-exit with the failing names printed; (3) a
returned mapping contains the environment's value for every requested
name. -/
theorem load_api_keys_all_or_nothing (env : String → Option String)
    (keys_to_load : List String) :
    (∀ code printed, load_api_keys env keys_to_load = .exited code printed → code = 78) ∧
    ((∃ k ∈ keys_to_load, env k = none) →
      ∃ printed, load_api_keys env keys_to_load = .exited 78 printed ∧
        ∀ k ∈ keys_to_load, env k = none → s!"Unable to load {k}" ∈ printed) ∧
    (∀ m printed, load_api_keys env keys_to_load = .ok m printed →
      ∀ k ∈ keys_to_load, ∃ v, env k = some v ∧ dictGet m k = some (some v)) := by
  rw [load_api_keys_eq]
  refine ⟨?_, ?_, ?_⟩
  · intro code printed hres
    split at hres
    · exact (LoadResult.exited.injEq _ _ _ _ ▸ hres).1.symm
    · cases hres
  · rintro ⟨k, hk, henv⟩
    have hlt := loadLoop_length_lt_of_missing env keys_to_load k hk henv
    rw [if_pos hlt]
    refine ⟨_, rfl, ?_⟩
    intro k2 hk2 henv2
    exact List.mem_append_left _
      (loadLoop_missing_printed env keys_to_load ⟨[], []⟩ k2 hk2 henv2)
  · intro m printed hres k hk
    split at hres
    · cases hres
    · rename_i hge
      cases henv : env k with
      | none => exact absurd (loadLoop_length_lt_of_missing env keys_to_load k hk henv) hge
      | some v =>
          refine ⟨v, rfl, ?_⟩
          have hm : m = (keys_to_load.foldl (load_step env) ⟨[], []⟩).key_buffer :=
            ((LoadResult.ok.injEq _ _ _ _ ▸ hres).1).symm
          rw [hm, loadLoop_get env keys_to_load ⟨[], []⟩ k]
          simp [hk, envEntry, henv]

/-- Witness for C3: with `OPENAI_API_KEY` set and `WEATHERAPI_KEY`
unset, the loader exits with status 78 and prints which name failed. -/
theorem load_api_keys_all_or_nothing_witness :
    ∃ printed,
      load_api_keys (fun k => if k = "OPENAI_API_KEY" then some "sk-test" else none)
        ["OPENAI_API_KEY", "WEATHERAPI_KEY"] = .exited 78 printed ∧
      s!"Unable to load WEATHERAPI_KEY" ∈ printed := by
  obtain ⟨printed, h1, h2⟩ :=
    (load_api_keys_all_or_nothing
      (fun k => if k = "OPENAI_API_KEY" then some "sk-test" else none)
      ["OPENAI_API_KEY", "WEATHERAPI_KEY"]).2.1
      ⟨"WEATHERAPI_KEY", by simp, by simp⟩
  exact ⟨printed, h1, by simpa using h2 "WEATHERAPI_KEY" (by simp) (by simp)⟩

/-- C10: a call to `load_api_keys` whose argument list repeats a name
exits with status 78 even when every named environment variable is
set: the loaded keys land in a dictionary, success is decided by
comparing the dictionary's size with the length of the requested-name
list, and a repeated name leaves the dictionary strictly smaller. -/
theorem load_api_keys_duplicate_names_exit (env : String → Option String)
    (keys_to_load : List String) (hdup : ¬ keys_to_load.Nodup)
    (hset : ∀ k ∈ keys_to_load, env k ≠ none) :
    ∃ printed, load_api_keys env keys_to_load = .exited 78 printed := by
  have hle := loadLoop_length_le_card env keys_to_load
  have hcard : keys_to_load.toFinset.card = keys_to_load.dedup.length :=
    List.card_toFinset keys_to_load
  have hsub : keys_to_load.dedup.length ≤ keys_to_load.length :=
    (List.dedup_sublist keys_to_load).length_le
  have hne : keys_to_load.dedup.length ≠ keys_to_load.length := by
    intro hc
    exact hdup (List.dedup_eq_self.mp ((List.dedup_sublist keys_to_load).eq_of_length hc))
  have hlt : (keys_to_load.foldl (load_step env) ⟨[], []⟩).key_buffer.length <
      keys_to_load.length := by omega
  exact ⟨_, by rw [load_api_keys_eq, if_pos hlt]⟩

/-- Witness for C10: requesting `WEATHERAPI_KEY` twice with the
variable set still exits with status 78. -/
theorem load_api_keys_duplicate_names_exit_witness :
    ∃ printed,
      load_api_keys (fun _ => some "k-0123456789abcdef")
        ["WEATHERAPI_KEY", "WEATHERAPI_KEY"] = .exited 78 printed :=
  load_api_keys_duplicate_names_exit _ _ (by simp) (by intro k hk; simp)

/-! ## Lemmas: tool dispatch -/

theorem dispatch_tool_call_ok_shape (env : EngineEnv) (s : EngineState) (tc : ToolCall)
    (s' : EngineState) (h : dispatch_tool_call env s tc = .ok s') :
    ∃ content,
      s'.conversation_history = s.conversation_history ++
        [{ role := "tool", content := some content, tool_calls := [],
           tool_call_id := if tc.id = "" then none else some tc.id }] ∧
      s'.requests = s.requests := by
  unfold dispatch_tool_call at h
  split at h
  · cases h
  · split at h
    · cases h
    · dsimp only at h
      split at h
      · cases h
      · split at h
        · cases h
        · cases h
          exact ⟨_, rfl, rfl⟩

theorem process_tool_calls_ok_shape (env : EngineEnv) :
    ∀ (tcs : List ToolCall) (s s' : EngineState),
      process_tool_calls env s tcs = .ok s' →
      ∃ new, s'.conversation_history = s.conversation_history ++ new ∧
        new.map (fun m => (m.role, m.tool_call_id)) =
          tcs.map (fun tc => ("tool", if tc.id = "" then none else some tc.id)) ∧
        s'.requests = s.requests := by
  intro tcs
  induction tcs with
  | nil =>
      intro s s' h
      cases h
      exact ⟨[], by simp, by simp, rfl⟩
  | cons tc rest ih =>
      intro s s' h
      unfold process_tool_calls at h
      split at h
      · cases h
      · rename_i s1 hdisp
        obtain ⟨new, hnew, hmap, hreq⟩ := ih s1 s' h
        obtain ⟨content, hc, hr⟩ := dispatch_tool_call_ok_shape env s tc s1 hdisp
        refine ⟨Message.mk "tool" (some content) []
            (if tc.id = "" then none else some tc.id) :: new, ?_, ?_, ?_⟩
        · rw [hnew, hc]
          simp
        · simp [hmap]
        · rw [hreq, hr]

/-- C1: whenever the engine processes the `tool_calls` list of an
assistant message to completion (none of the per-call assertions or
exceptions fires), exactly N `tool`-role messages are appended for its
N tool calls, the i-th appended message carrying the correlation id of
the i-th tool call (the per-position `map` equality below), each call
answered by exactly one message; no completion request is issued
during the appends (`requests` is unchanged — the follow-up request
happens only after `process_tool_calls` returns).  Correlation ids are
assumed nonempty, as the id of a tool call is: `Conversation.append`
drops a Python-falsy (empty) `tool_call_id`. -/
theorem tool_calls_all_answered (env : EngineEnv) (s s' : EngineState)
    (tcs : List ToolCall) (hok : process_tool_calls env s tcs = .ok s')
    (hids : ∀ tc ∈ tcs, tc.id ≠ "") :
    ∃ new, s'.conversation_history = s.conversation_history ++ new ∧
      new.length = tcs.length ∧
      new.map (fun m => (m.role, m.tool_call_id)) =
        tcs.map (fun tc => ("tool", some tc.id)) ∧
      s'.requests = s.requests := by
  obtain ⟨new, hnew, hmap, hreq⟩ := process_tool_calls_ok_shape env tcs s s' hok
  have hmap2 : tcs.map (fun tc => (("tool" : String), if tc.id = "" then none else some tc.id)) =
      tcs.map (fun tc => ("tool", some tc.id)) := by
    apply List.map_congr_left
    intro tc htc
    simp [hids tc htc]
  have hlen : new.length = tcs.length := by
    have := congrArg List.length hmap
    simpa using this
  exact ⟨new, hnew, hlen, hmap2 ▸ hmap, hreq⟩

/-- Witness for C1: a one-call assistant message, processed against
`adv_env`, appends exactly one `tool` message carrying `call_0`. -/
theorem tool_calls_all_answered_witness :
    ∃ new,
      [Message.mk "tool" (some "None") [] (some "call_0")] = ([] : List Message) ++ new ∧
      new.length = 1 ∧
      new.map (fun m => (m.role, m.tool_call_id)) = [("tool", some "call_0")] ∧
      (0 : Nat) = 0 :=
  have hok : process_tool_calls adv_env ⟨[], [], 0⟩
      [⟨"call_0", "function", ⟨"get_current_weather", ""⟩⟩] =
      .ok ⟨[Message.mk "tool" (some "None") [] (some "call_0")],
        [("get_current_weather", Json.obj [("location", Json.str "Paris")])], 0⟩ := by
    simp [process_tool_calls, dispatch_tool_call, adv_env, Conversation.append,
      ToolReturn.pyStr, Json.pyRepr]
  tool_calls_all_answered adv_env ⟨[], [], 0⟩
    ⟨[Message.mk "tool" (some "None") [] (some "call_0")],
      [("get_current_weather", Json.obj [("location", Json.str "Paris")])], 0⟩
    [⟨"call_0", "function", ⟨"get_current_weather", ""⟩⟩] hok (by decide)

/-- C8: a tool call whose declared function name is neither
`get_current_weather` nor `get_weather_forecast` makes the dispatch
abort with the engine state exactly as it was — no function invoked,
no tool message appended; and when the call is otherwise well-formed
(`type` is `function`, arguments parse), the abort is precisely the
failed `assert func_to_run != None` invariant. -/
theorem unknown_tool_name_asserts (env : EngineEnv) (s : EngineState) (tc : ToolCall)
    (hname1 : tc.function.name ≠ "get_current_weather")
    (hname2 : tc.function.name ≠ "get_weather_forecast") :
    (∃ h, dispatch_tool_call env s tc = .error (h, s)) ∧
    (tc.type = "function" →
      ∀ args, env.json_loads tc.function.arguments = .ok args →
        dispatch_tool_call env s tc = .error (.assertBackend tc.function.name, s)) := by
  constructor
  · by_cases htype : tc.type = "function"
    · cases hargs : env.json_loads tc.function.arguments with
      | error e =>
          exact ⟨.uncaught e, by simp [dispatch_tool_call, htype, hargs]⟩
      | ok args =>
          exact ⟨.assertBackend tc.function.name,
            by simp [dispatch_tool_call, htype, hargs, hname1, hname2]⟩
    · exact ⟨.assertType, by simp [dispatch_tool_call, htype]⟩
  · intro htype args hargs
    simp [dispatch_tool_call, htype, hargs, hname1, hname2]

/-- Witness for C8: dispatching a call to the unknown name
`get_astronomy` aborts with the backend assertion and an unchanged
state. -/
theorem unknown_tool_name_asserts_witness :
    (∃ h, dispatch_tool_call adv_env ⟨initial_history, [], 0⟩
        ⟨"call_9", "function", ⟨"get_astronomy", ""⟩⟩ =
          .error (h, ⟨initial_history, [], 0⟩)) ∧
    dispatch_tool_call adv_env ⟨initial_history, [], 0⟩
        ⟨"call_9", "function", ⟨"get_astronomy", ""⟩⟩ =
      .error (.assertBackend "get_astronomy", ⟨initial_history, [], 0⟩) := by
  have h := unknown_tool_name_asserts adv_env ⟨initial_history, [], 0⟩
    ⟨"call_9", "function", ⟨"get_astronomy", ""⟩⟩ (by decide) (by decide)
  exact ⟨h.1, h.2 rfl _ rfl⟩

/-! ## the Weather Lookup Client under failure -/

/-- C4: a transport or decoding failure inside `get_current_weather`
or `get_weather_forecast` does not raise past the function's boundary:
the decorated call evaluates to a normal return (`.ok`) whose value is
the exception object itself, with the two-line human-readable failure
notice printed; and the engine's dispatch then appends the stringified
exception as the content of a `tool`-role message — the failure enters
the conversation as data. -/
theorem weather_failures_are_data :
    (∀ (key : String) (args loc : Json) (e : PyExn),
      args.dictGet "location" = some loc →
      get_current_weather key (fun _ _ => .error e) args =
        (.ok (["Unable to retrieve current weather.", s!"Exception: {e.pyStr}"], .exn e), 1)) ∧
    (∀ (key : String) (args loc d : Json) (e : PyExn),
      args.dictGet "location" = some loc →
      args.dictGet "days" = some d →
      get_weather_forecast key (fun _ _ => .error e) args =
        (.ok ([s!"Unable to retrieve {d.fstr}-day forecast.", s!"Exception: {e.pyStr}"],
          .exn e), 1)) ∧
    (∀ (env : EngineEnv) (s : EngineState) (tc : ToolCall) (args : Json) (e : PyExn),
      tc.type = "function" →
      env.json_loads tc.function.arguments = .ok args →
      tc.function.name = "get_current_weather" →
      env.run_get_current_weather args = .ok (.exn e) →
      dispatch_tool_call env s tc = .ok (EngineState.mk
        (Conversation.append s.conversation_history "tool" ((ToolReturn.exn e).pyStr)
          (some tc.id))
        (s.invocations ++ [(tc.function.name, args)]) s.requests)) := by
  refine ⟨?_, ?_, ?_⟩
  · intro key args loc e hloc
    simp [get_current_weather, tenacity_retry, weather_retry_attempt_cap, tenacity_run,
      get_current_weather_body, hloc]
  · intro key args loc d e hloc hd
    simp [get_weather_forecast, tenacity_retry, weather_retry_attempt_cap, tenacity_run,
      get_weather_forecast_body, hloc, hd]
  · intro env s tc args e htype hargs hname hrun
    simp [dispatch_tool_call, htype, hargs, hname, hrun]

/-- Witness for C4: a connection error on the single GET for location
`10001` is printed, returned as the result, and appended as the
content of the answering `tool` message. -/
theorem weather_failures_are_data_witness :
    get_current_weather "k" (fun _ _ => .error (.requestException "connection error"))
      (Json.obj [("location", Json.str "10001")]) =
      (.ok (["Unable to retrieve current weather.", "Exception: connection error"],
        .exn (.requestException "connection error")), 1) ∧
    dispatch_tool_call
      (EngineEnv.mk (fun _ => ⟨none, []⟩)
        (fun _ => .ok (Json.obj [("location", Json.str "10001")]))
        (fun _ => .ok (.exn (.requestException "connection error")))
        (fun _ => .ok (.json Json.null)))
      ⟨[], [], 0⟩ ⟨"call_1", "function", ⟨"get_current_weather", ""⟩⟩ =
      .ok (EngineState.mk
        (Conversation.append [] "tool" "connection error" (some "call_1"))
        ([("get_current_weather", Json.obj [("location", Json.str "10001")])]) 0) := by
  constructor
  · have h := weather_failures_are_data.1 "k"
      (Json.obj [("location", Json.str "10001")]) (Json.str "10001")
      (.requestException "connection error") (by simp [Json.dictGet])
    simpa [PyExn.pyStr] using h
  · have h := weather_failures_are_data.2.2
      (EngineEnv.mk (fun _ => ⟨none, []⟩)
        (fun _ => .ok (Json.obj [("location", Json.str "10001")]))
        (fun _ => .ok (.exn (.requestException "connection error")))
        (fun _ => .ok (.json Json.null)))
      ⟨[], [], 0⟩ ⟨"call_1", "function", ⟨"get_current_weather", ""⟩⟩
      (Json.obj [("location", Json.str "10001")])
      (.requestException "connection error") rfl rfl rfl rfl
    simpa [ToolReturn.pyStr, PyExn.pyStr] using h

/-- C5 (the code defeats its own retry decorator): on a persistent
transport failure the decorated weather functions make exactly ONE
attempt, not up to `stop_after_attempt(3)`: the body catches every
exception inside its `try` and returns it as a value, so `tenacity` —
which retries only when the decorated function raises — observes a
normal return and never retries.  Evaluated at a failing input, the
attempt counter is 1, against the decorator's declared cap of 3
attempts with a 40-second randomized exponential backoff ceiling. -/
theorem weather_retry_single_attempt_on_transport_failure :
    (get_current_weather "k" (fun _ _ => .error (.requestException "connection error"))
        (Json.obj [("location", Json.str "10001")])).2 = 1 ∧
    (get_weather_forecast "k" (fun _ _ => .error (.requestException "connection error"))
        (Json.obj [("location", Json.str "10001"), ("days", Json.int 3)])).2 = 1 ∧
    weather_retry_attempt_cap = 3 ∧ weather_retry_max_backoff = 40 :=
  ⟨rfl, rfl, rfl, rfl⟩

/-- Contrast for C5: an exception raised OUTSIDE the `try` (the
`args['location']` lookup) does reach `tenacity`, which then makes all
3 attempts before re-raising — the retry machinery itself is modelled
faithfully; it is the catch-all inside the weather functions that
starves it. -/
theorem tenacity_reraises_after_three_attempts :
    get_current_weather "k" (fun _ _ => .error (.requestException "connection error"))
      (Json.obj []) = (.error (.keyError "location"), 3) :=
  rfl

/-! ## the advance cycle: error halting and (non-)termination -/

/-- One adversarial advance round: request `k` appends the adversarial
assistant message and its tool answer, then recurses with one unit of
fuel less. -/
theorem adv_env_round (k : Nat) (s : EngineState) (n : Nat) :
    get_next_completion adv_env k s (n + 1) =
      get_next_completion adv_env (k + 1)
        ⟨s.conversation_history ++ [adv_message] ++
            [Message.mk "tool" (some "None") [] (some "call_0")],
          s.invocations ++ [("get_current_weather", Json.obj [("location", Json.str "Paris")])],
          s.requests + 1⟩ n := by
  simp [get_next_completion, adv_env, adv_message, ResponseBody.truthyError,
    process_tool_calls, dispatch_tool_call, Conversation.append,
    ToolReturn.pyStr, Json.pyRepr]

theorem adv_env_runs_out (fuel : Nat) : ∀ (k : Nat) (s : EngineState),
    ∃ s', get_next_completion adv_env k s fuel = .outOfFuel s' := by
  induction fuel with
  | zero => intro k s; exact ⟨s, rfl⟩
  | succ n ih =>
      intro k s
      rw [adv_env_round]
      exact ih (k + 1) _

/-- C2 refutation: against a remote model that answers every completion
with a well-formed tool call, `get_next_completion` never returns for
the user turn: whatever recursion depth `fuel` is granted, the run is
still unfinished — the self-recursion at lines 121-144 has no bound of
its own, so the tool-call/advance cycle does not terminate for every
possible sequence of assistant responses, contrary to the required
termination guarantee. -/
theorem adversarial_model_turn_never_terminates :
    ∀ fuel : Nat,
      (get_next_completion adv_env 0 ⟨initial_history, [], 0⟩ fuel).isOutOfFuel = true := by
  intro fuel
  obtain ⟨s', hs'⟩ := adv_env_runs_out fuel 0 ⟨initial_history, [], 0⟩
  rw [hs']
  rfl

/-- The same fact packaged through `TurnTerminates`: the adversarial
turn admits no terminating fuel at all. -/
theorem adv_env_turn_not_terminating :
    ¬ TurnTerminates adv_env ⟨initial_history, [], 0⟩ := by
  rintro ⟨fuel, hterm⟩
  obtain ⟨s', hs'⟩ := adv_env_runs_out fuel 0 ⟨initial_history, [], 0⟩
  rw [hs'] at hterm
  simp [RunResult.isOutOfFuel] at hterm

/-- The cycle does terminate as soon as the model cooperates: a
response with no (truthy) error whose first choice carries no tool
calls makes the advance return at that round, appending exactly that
assistant message. -/
theorem advance_returns_when_no_tool_calls (env : EngineEnv) (k : Nat)
    (s : EngineState) (fuel : Nat) (m : Message)
    (herr : (env.completions k).truthyError = none)
    (hm : (env.completions k).choices.head? = some m)
    (hnotc : m.tool_calls = []) :
    get_next_completion env k s (fuel + 1) =
      .done ⟨s.conversation_history ++ [m], s.invocations, s.requests + 1⟩ := by
  simp [get_next_completion, herr, hm, hnotc]

/-- C6: a completion response carrying a top-level error payload (the
`error` field present with a Python-truthy value, which is what
`request_response.json().get('error')` tests) makes the advance report
it and halt by `raise SystemExit` — no assistant message is appended,
the conversation history and the invocation log are exactly unchanged
on the error path. -/
theorem advance_error_halts_without_append (env : EngineEnv) (k : Nat)
    (s : EngineState) (fuel : Nat) (err : Json)
    (herr : (env.completions k).error = some err) (htruthy : err.isTruthy = true) :
    ∃ s', get_next_completion env k s (fuel + 1) = .halted (.systemExit err) s' ∧
      s'.conversation_history = s.conversation_history ∧
      s'.invocations = s.invocations := by
  have htr : (env.completions k).truthyError = some err := by
    unfold ResponseBody.truthyError
    rw [herr]
    simp [htruthy]
  exact ⟨⟨s.conversation_history, s.invocations, s.requests + 1⟩,
    by simp [get_next_completion, htr], rfl, rfl⟩

/-- Witness for C6: a body containing only a (truthy) `error` field and
no choices halts the advance with the history untouched. -/
theorem advance_error_halts_without_append_witness :
    ∃ s', get_next_completion
        (EngineEnv.mk (fun _ => ⟨some (Json.str "rate limit exceeded"), []⟩)
          (fun _ => .ok Json.null) (fun _ => .ok (.json Json.null))
          (fun _ => .ok (.json Json.null)))
        0 ⟨initial_history, [], 0⟩ 1 =
        .halted (.systemExit (Json.str "rate limit exceeded")) s' ∧
      s'.conversation_history = initial_history ∧
      s'.invocations = [] :=
  advance_error_halts_without_append _ 0 ⟨initial_history, [], 0⟩ 0
    (Json.str "rate limit exceeded") rfl rfl

/-! ## the history only ever grows -/

theorem dispatch_ok_extends (env : EngineEnv) (s : EngineState) (tc : ToolCall)
    (s' : EngineState) (h : dispatch_tool_call env s tc = .ok s') :
    ∃ t, s'.conversation_history = s.conversation_history ++ t :=
  let ⟨_, hc, _⟩ := dispatch_tool_call_ok_shape env s tc s' h
  ⟨_, hc⟩

theorem dispatch_error_history (env : EngineEnv) (s : EngineState) (tc : ToolCall)
    (hlt : Halt) (s' : EngineState)
    (h : dispatch_tool_call env s tc = .error (hlt, s')) :
    s'.conversation_history = s.conversation_history := by
  unfold dispatch_tool_call at h
  split at h
  · cases h; rfl
  · split at h
    · cases h; rfl
    · dsimp only at h
      split at h
      · cases h; rfl
      · split at h
        · cases h; rfl
        · cases h

theorem process_tool_calls_extends (env : EngineEnv) :
    ∀ (tcs : List ToolCall) (s : EngineState),
      (∀ s', process_tool_calls env s tcs = .ok s' →
        ∃ t, s'.conversation_history = s.conversation_history ++ t) ∧
      (∀ hlt s', process_tool_calls env s tcs = .error (hlt, s') →
        ∃ t, s'.conversation_history = s.conversation_history ++ t) := by
  intro tcs
  induction tcs with
  | nil =>
      intro s
      constructor
      · intro s' h
        cases h
        exact ⟨[], by simp⟩
      · intro hlt s' h
        cases h
  | cons tc rest ih =>
      intro s
      constructor
      · intro s' h
        unfold process_tool_calls at h
        split at h
        · cases h
        · rename_i s1 hdisp
          obtain ⟨t1, ht1⟩ := dispatch_ok_extends env s tc s1 hdisp
          obtain ⟨t2, ht2⟩ := (ih s1).1 s' h
          exact ⟨t1 ++ t2, by rw [ht2, ht1, List.append_assoc]⟩
      · intro hlt s' h
        unfold process_tool_calls at h
        split at h
        · rename_i p hdisp
          cases h
          exact ⟨[], by rw [dispatch_error_history env s tc hlt s' hdisp]; simp⟩
        · rename_i s1 hdisp
          obtain ⟨t1, ht1⟩ := dispatch_ok_extends env s tc s1 hdisp
          obtain ⟨t2, ht2⟩ := (ih s1).2 hlt s' h
          exact ⟨t1 ++ t2, by rw [ht2, ht1, List.append_assoc]⟩

theorem get_next_completion_extends (env : EngineEnv) :
    ∀ (fuel k : Nat) (s : EngineState),
      ∃ t, (get_next_completion env k s fuel).state.conversation_history =
        s.conversation_history ++ t := by
  intro fuel
  induction fuel with
  | zero =>
      intro k s
      exact ⟨[], by simp [get_next_completion, RunResult.state]⟩
  | succ n ih =>
      intro k s
      unfold get_next_completion
      dsimp only
      split
      · exact ⟨[], by simp [RunResult.state]⟩
      · split
        · exact ⟨[], by simp [RunResult.state]⟩
        · rename_i m hm
          split
          · exact ⟨[m], by simp [RunResult.state]⟩
          · split
            · rename_i s2 hproc
              obtain ⟨t, ht⟩ := (process_tool_calls_extends env m.tool_calls
                ⟨s.conversation_history ++ [m], s.invocations, s.requests + 1⟩).2 _ _ hproc
              exact ⟨[m] ++ t, by simp [RunResult.state, ht, List.append_assoc]⟩
            · rename_i s2 hproc
              obtain ⟨t1, ht1⟩ := (process_tool_calls_extends env m.tool_calls
                ⟨s.conversation_history ++ [m], s.invocations, s.requests + 1⟩).1 s2 hproc
              obtain ⟨t2, ht2⟩ := ih (k + 1) s2
              exact ⟨[m] ++ (t1 ++ t2), by
                rw [ht2, ht1]
                simp [List.append_assoc]⟩

theorem main_loop_iter_extends (env : EngineEnv) (fuel : Nat) (s : EngineState)
    (input : String) :
    ∃ t, (main_loop_iter env fuel s input).1.conversation_history =
      s.conversation_history ++ t := by
  unfold main_loop_iter
  split
  · exact ⟨[], by simp⟩
  · split
    · exact ⟨[], by simp⟩
    · obtain ⟨t, ht⟩ := get_next_completion_extends env fuel 0
        ⟨Conversation.append s.conversation_history "user" input none,
          s.invocations, s.requests⟩
      refine ⟨Message.mk "user" (some input) [] none :: t, ?_⟩
      simpa [Conversation.append] using ht

/-- C7: in every state reachable by the ordinary exchange loop after
the seeding append, the first element of the conversation history is
the seeded system message; the loop's operations (input handling, the
user-message append, `get_next_completion` with its tool dispatch)
only ever append — every reachable history is the initial one plus a
suffix, and nothing removes, replaces, or reorders the first element
(only the separate explicit `pop` method removes messages, and the
loop never calls it). -/
theorem system_message_always_first (h : List Message)
    (hr : ReachableHistory h) :
    h.head? = some system_message ∧ ∃ t, h = initial_history ++ t := by
  induction hr with
  | init => exact ⟨rfl, ⟨[], by simp⟩⟩
  | step env fuel input h0 inv reqs hr0 ih =>
      obtain ⟨hhead, t0, ht0⟩ := ih
      obtain ⟨t, ht⟩ := main_loop_iter_extends env fuel ⟨h0, inv, reqs⟩ input
      constructor
      · rw [ht]
        dsimp only at ht0 ⊢
        rw [ht0]
        rfl
      · exact ⟨t0 ++ t, by
          dsimp only at ht
          rw [ht, ht0, List.append_assoc]⟩

/-- Witness for C7: the seeded initial history itself satisfies the
invariant. -/
theorem system_message_always_first_witness :
    initial_history.head? = some system_message ∧
      ∃ t, initial_history = initial_history ++ t :=
  system_message_always_first initial_history ReachableHistory.init

/-- C9: a line of user input that is empty after `strip()` leaves the
loop state exactly unchanged: no message is appended, no completion
request is issued, and the iteration's only effect is printing the
usage hint before re-prompting. -/
theorem empty_input_leaves_history_unchanged (env : EngineEnv) (fuel : Nat)
    (s : EngineState) (user_input : String) (hempty : pyStrip user_input = "") :
    main_loop_iter env fuel s user_input = (s, .hint) := by
  unfold main_loop_iter
  rw [if_pos hempty]

/-- Witness for C9: whitespace-only input changes nothing and prints
the hint. -/
theorem empty_input_leaves_history_unchanged_witness :
    main_loop_iter adv_env 3 ⟨initial_history, [], 0⟩ " \t " =
      (⟨initial_history, [], 0⟩, .hint) :=
  empty_input_leaves_history_unchanged adv_env 3 ⟨initial_history, [], 0⟩ " \t "
    (by decide)

end Weatherbot
